import Mathlib

/-!
# Verification of the GhostDistributed peer-coordination engine

Shallow embedding of the `GhostDistributed` class (capability scoring,
role suggestion, master election, latency bookkeeping and task
distribution) from the repository's distributed-coordination module.

JavaScript numbers are modelled as `ℚ` (all arithmetic the code performs
on them — sums, `min`/`max`, division by constants, `Math.round` — is
exact rational arithmetic on the inputs that occur).  JS `Map`s are
modelled as insertion-ordered association lists: `Map.set` on a present
key updates the value in place keeping its position, on an absent key it
appends; iteration order is insertion order, matching JS semantics.

Side effects are made explicit: each handler returns the new state
together with the list of outputs it produced (events passed to `emit`,
and messages passed to `ghostClient.sendToPeer` / `broadcast`), in
order.  Wall-clock readings (`performance.now()`) are nondeterministic
inputs, so the latency value computed in the `latency-pong` handler is a
parameter of the embedded handler.
-/

namespace GhostDistributed

/-- `Math.round`: round half toward +∞ (JS semantics), as `⌊x + 1/2⌋`. -/
def jsRound (x : ℚ) : ℤ :=
  ⌊x + 1/2⌋

/-- `PeerCapabilities` from `shared/ghost-types`. -/
structure PeerCapabilities where
  hasGPU : Bool
  hasWASM : Bool
  maxMemory : ℚ
  bandwidth : ℚ
  canRender : Bool
  canCompute : Bool
  canStore : Bool
deriving DecidableEq, Repr

/-- `DeviceRole` union type. -/
inductive DeviceRole where
  | master
  | compute
  | storage
  | display
deriving DecidableEq, Repr

/-- `DeviceScore` record kept in the `deviceScores` map. -/
structure DeviceScore where
  peerId : String
  peerName : String
  score : ℚ
  capabilities : PeerCapabilities
  suggestedRole : DeviceRole
  latency : ℚ
deriving DecidableEq, Repr

/-- `calculateDeviceScore`: capability bonuses, resource bonuses, latency
penalty, then `Math.max(0, Math.round(score))`. -/
def calculateDeviceScore (capabilities : PeerCapabilities) (latency : ℚ) : ℚ :=
  let score : ℚ := 0
  let score := if capabilities.hasGPU then score + 40 else score
  let score := if capabilities.hasWASM then score + 20 else score
  let score := if capabilities.canRender then score + 20 else score
  let score := if capabilities.canCompute then score + 10 else score
  let score := score + min (capabilities.maxMemory / 1024) 10
  let score := score + min (capabilities.bandwidth / 10) 10
  let score := score - min (latency / 10) 20
  ((max 0 (jsRound score) : ℤ) : ℚ)

/-- `suggestRole`: ordered threshold rules, first match wins. -/
def suggestRole (capabilities : PeerCapabilities) (score : ℚ) : DeviceRole :=
  if score ≥ 70 ∧ capabilities.hasGPU ∧ capabilities.canRender then
    .master
  else if score ≥ 50 ∧ capabilities.hasWASM ∧ capabilities.canCompute then
    .compute
  else if score ≥ 30 ∧ capabilities.canStore then
    .storage
  else
    .display

/-- The capability profile of the spec's "score boundary" test peer:
everything enabled, 10240 MB memory, 100 Mbps bandwidth. -/
def fullCaps : PeerCapabilities :=
  { hasGPU := true, hasWASM := true, maxMemory := 10240, bandwidth := 100,
    canRender := true, canCompute := true, canStore := true }

/-- Sum of the four boolean base contributions of the score. -/
def baseContribution (c : PeerCapabilities) : ℚ :=
  (if c.hasGPU then 40 else 0) + (if c.hasWASM then 20 else 0) +
    (if c.canRender then 20 else 0) + (if c.canCompute then 10 else 0)

/-! ## JS `Map` model: insertion-ordered association lists -/

/-- `Map.get`: value of the first (unique) entry with the given key. -/
def mapGet (m : List (String × α)) (k : String) : Option α :=
  (m.find? (fun e => e.1 = k)).map Prod.snd

/-- `Map.has`. -/
def mapHas (m : List (String × α)) (k : String) : Bool :=
  m.any (fun e => e.1 = k)

/-- `Map.set`: update in place (keeping position) when the key is present,
append otherwise — JS insertion-order semantics. -/
def mapSet (m : List (String × α)) (k : String) (v : α) : List (String × α) :=
  if mapHas m k then m.map (fun e => if e.1 = k then (k, v) else e)
  else m ++ [(k, v)]

/-- `Map.delete`. -/
def mapDelete (m : List (String × α)) (k : String) : List (String × α) :=
  m.filter (fun e => e.1 ≠ k)

/-! ## Remaining data model -/

/-- `GhostPeer` from `shared/ghost-types` (the `type` and `status` unions are
modelled as strings; only `id`, `name` and `capabilities` are read by the
distribution engine). -/
structure GhostPeer where
  id : String
  name : String
  type : String
  capabilities : PeerCapabilities
  status : String
  lastSeen : ℚ
deriving DecidableEq, Repr

/-- `DistributedTask`.  The task type union
`render | physics | audio | texture | input` is modelled as a string because
`findBestDeviceForTask` switches on a string (and also recognises `compute`
and `storage`).  `data : ArrayBuffer | null` is modelled by its only observed
attribute, the optional byte length. -/
structure DistributedTask where
  id : String
  type : String
  data : Option ℕ
  timestamp : ℚ
deriving DecidableEq, Repr

/-- `DistributedMetrics`. -/
structure DistributedMetrics where
  totalDevices : ℕ
  masterDevice : Option String
  avgLatency : ℚ
  totalBandwidth : ℚ
  framesProcessed : ℕ
  tasksDistributed : ℕ
  failedTasks : ℕ
deriving DecidableEq, Repr

/-- A `completedTasks` entry: `{ result, from, completedAt }`.  The opaque
`result` payload and the `Date.now()` timestamp are not modelled; the sending
peer is. -/
structure CompletedEntry where
  fromPeer : String
deriving DecidableEq, Repr

/-- Events passed to `emit` (the payloads the claims talk about). -/
inductive EmittedEvent where
  | initEvent (myScore : ℚ)
  | scoresUpdated (scores : List DeviceScore)
  | roleChanged (role : DeviceRole) (isMaster : Bool)
  | masterElected (masterId : String)
  | latencyMeasured (peerId : String) (latency : ℚ)
  | taskReceived (taskId : String)
  | taskCompleted (taskId : String) (fromPeer : String)
  | frameReceived (fromPeer : String)
  | startedEvent
  | stoppedEvent
deriving DecidableEq, Repr

/-- Messages handed to `ghostClient.sendToPeer` / `ghostClient.broadcast`. -/
inductive OutMessage where
  | latencyPing (dest : String) (timestamp : ℚ)
  | latencyPong (dest : String) (originalTimestamp : ℚ)
  | taskAssign (dest : String) (taskId : String) (taskType : String)
      (dataSize : ℕ) (timestamp : ℚ)
  | taskResultBroadcast (taskId : String)
  | frameData (dest : String) (frameId : ℚ)
  | renderRequest (dest : String) (frameId : ℚ)
deriving DecidableEq, Repr

/-- One observable output of a handler: an emitted event or a sent message. -/
inductive Output where
  | event (e : EmittedEvent)
  | send (m : OutMessage)
deriving DecidableEq, Repr

/-- The mutable fields of the `GhostDistributed` instance, together with the
local identity (`ghostClient.getPeerId()` / name / capabilities, fixed for
the session). -/
structure State where
  selfId : String
  selfName : String
  selfCapabilities : PeerCapabilities
  myRole : DeviceRole
  masterPeerId : Option String
  deviceScores : List (String × DeviceScore)
  pendingTasks : List (String × DistributedTask)
  completedTasks : List (String × CompletedEntry)
  latencyTests : List (String × List ℚ)
  isRunning : Bool
  metrics : DistributedMetrics
deriving DecidableEq, Repr

/-! ## Master election -/

/-- The two scanning passes of `electMaster`: first the best-scoring peer
whose suggested role is `master` (strict improvement, so first-encountered
wins ties), then — only if that found nothing — the best-scoring peer
overall, continuing with the same `bestScore` accumulator. -/
def electMasterWinner (deviceScores : List (String × DeviceScore)) :
    Option String × ℚ :=
  let p1 := deviceScores.foldl
    (fun (acc : Option String × ℚ) e =>
      if e.2.score > acc.2 ∧ e.2.suggestedRole = .master then (some e.1, e.2.score)
      else acc)
    (none, -1)
  match p1.1 with
  | some _ => p1
  | none =>
    deviceScores.foldl
      (fun (acc : Option String × ℚ) e =>
        if e.2.score > acc.2 then (some e.1, e.2.score) else acc)
      p1

/-- `electMaster`: adopt the winner only when it differs from the current
`masterPeerId`; update the local role and emit `role-changed` and
`master-elected`; otherwise do nothing at all. -/
def electMaster (s : State) : State × List Output :=
  match (electMasterWinner s.deviceScores).1 with
  | none => (s, [])
  | some bestPeerId =>
    if s.masterPeerId = some bestPeerId then (s, [])
    else
      let s := { s with masterPeerId := some bestPeerId,
                        metrics.masterDevice := some bestPeerId }
      if bestPeerId = s.selfId then
        ({ s with myRole := .master },
         [.event (.roleChanged .master true), .event (.masterElected bestPeerId)])
      else
        let newRole := (((mapGet s.deviceScores s.selfId).map
          (fun d => d.suggestedRole)).getD .display)
        ({ s with myRole := newRole },
         [.event (.roleChanged newRole false), .event (.masterElected bestPeerId)])

/-! ## Peer-list updates -/

/-- `updateDeviceScores`: insert a record for every not-yet-known peer (with
the first stored latency sample if one exists and is non-zero — the source's
`latencyTests.get(id)?.[0] || 50` treats a missing array, a missing first
element and a `0` sample alike — and 50 otherwise), then re-elect the master,
refresh `totalDevices` and emit the score snapshot. -/
def updateDeviceScores (s : State) (peers : List GhostPeer) : State × List Output :=
  let scores := peers.foldl
    (fun ds peer =>
      if mapHas ds peer.id then ds
      else
        let latency : ℚ :=
          match (mapGet s.latencyTests peer.id).bind List.head? with
          | some v => if v = 0 then 50 else v
          | none => 50
        let score := calculateDeviceScore peer.capabilities latency
        mapSet ds peer.id
          { peerId := peer.id, peerName := peer.name, score := score,
            capabilities := peer.capabilities,
            suggestedRole := suggestRole peer.capabilities score,
            latency := latency })
    s.deviceScores
  let s := { s with deviceScores := scores }
  let r := electMaster s
  let s := { r.1 with metrics.totalDevices := r.1.deviceScores.length }
  (s, r.2 ++ [.event (.scoresUpdated (s.deviceScores.map Prod.snd))])

/-! ## Latency bookkeeping -/

/-- `updateAverageLatency`: average of the most recent sample of every peer
with at least one sample; 0 when there is none. -/
def updateAverageLatency (s : State) : State :=
  let acc := s.latencyTests.foldl
    (fun (acc : ℚ × ℕ) e =>
      match e.2.getLast? with
      | some v => (acc.1 + v, acc.2 + 1)
      | none => acc)
    (0, 0)
  { s with metrics.avgLatency := if acc.2 > 0 then acc.1 / (acc.2 : ℚ) else 0 }

/-- The `latency-pong` branch of `handlePeerMessage`.  The measured latency
(`performance.now() − originalTimestamp`) is a nondeterministic input and is
passed in.  The sample is always appended to `latencyTests[from]`; if the
peer has a directory record its `latency` and `score` fields are overwritten
(nothing else — in particular `suggestedRole` is left as it was and no
re-election happens); then the average-latency metric is refreshed and
`latency-measured` is emitted. -/
def handleLatencyPong (s : State) (fromPeer : String) (latency : ℚ) :
    State × List Output :=
  let tests :=
    if mapHas s.latencyTests fromPeer then s.latencyTests
    else mapSet s.latencyTests fromPeer []
  let tests := mapSet tests fromPeer (((mapGet tests fromPeer).getD []) ++ [latency])
  let scores :=
    match mapGet s.deviceScores fromPeer with
    | some d =>
      mapSet s.deviceScores fromPeer
        { d with latency := latency,
                 score := calculateDeviceScore d.capabilities latency }
    | none => s.deviceScores
  let s := { s with latencyTests := tests, deviceScores := scores }
  let s := updateAverageLatency s
  (s, [.event (.latencyMeasured fromPeer latency)])

/-! ## Task distribution -/

/-- The per-device suitability computed inside `findBestDeviceForTask`:
score, plus the task-type affinity bonus, minus `latency/5`. -/
def taskSuitability (taskType : String) (device : DeviceScore) : ℚ :=
  let suitability := device.score
  let suitability :=
    if taskType = "render" then
      if device.capabilities.hasGPU ∧ device.capabilities.canRender then
        suitability + 30
      else suitability
    else if taskType = "physics" ∨ taskType = "compute" then
      if device.capabilities.hasWASM ∧ device.capabilities.canCompute then
        suitability + 20
      else suitability
    else if taskType = "texture" ∨ taskType = "storage" then
      if device.capabilities.canStore then suitability + 15 else suitability
    else suitability
  suitability - device.latency / 5

/-- `findBestDeviceForTask`: scan the directory in order, skipping the local
node, keeping the first device whose suitability strictly exceeds the running
best (initially −1). -/
def findBestDeviceForTask (s : State) (taskType : String) : Option DeviceScore :=
  (s.deviceScores.foldl
    (fun (acc : Option DeviceScore × ℚ) e =>
      if e.2.peerId = s.selfId then acc
      else if taskSuitability taskType e.2 > acc.2 then
        (some e.2, taskSuitability taskType e.2)
      else acc)
    (none, -1)).1

/-- `distributeTask`: returns `false` immediately when not running (touching
nothing); otherwise picks a target — on failure bumps `failedTasks`, on
success records the pending task, sends `task-assign` (with the payload's
byte size only) and bumps `tasksDistributed`. -/
def distributeTask (s : State) (task : DistributedTask) :
    State × List Output × Bool :=
  if !s.isRunning then (s, [], false)
  else
    match findBestDeviceForTask s task.type with
    | none => ({ s with metrics.failedTasks := s.metrics.failedTasks + 1 }, [], false)
    | some targetDevice =>
      let s := { s with pendingTasks := mapSet s.pendingTasks task.id task }
      let s := { s with metrics.tasksDistributed := s.metrics.tasksDistributed + 1 }
      (s, [.send (.taskAssign targetDevice.peerId task.id task.type
            ((task.data).getD 0) task.timestamp)], true)

/-- `handleTaskAssignment`: emits `task-received` and (after the modelled-out
`setTimeout`) broadcasts a `task-result` for the task id. -/
def handleTaskAssignment (s : State) (taskId : String) : State × List Output :=
  (s, [.event (.taskReceived taskId), .send (.taskResultBroadcast taskId)])

/-- `handleTaskResult`: a result for a task still pending completes it
(removing it from the pending map, recording it as completed and emitting
`task-completed`); any other task id is ignored outright. -/
def handleTaskResult (s : State) (fromPeer : String) (taskId : String) :
    State × List Output :=
  match mapGet s.pendingTasks taskId with
  | some _ =>
    let s := { s with pendingTasks := mapDelete s.pendingTasks taskId,
                      completedTasks :=
                        mapSet s.completedTasks taskId { fromPeer := fromPeer } }
    (s, [.event (.taskCompleted taskId fromPeer)])
  | none => (s, [])

/-- `processRenderRequest`: count the frame and send it back. -/
def processRenderRequest (s : State) (fromPeer : String) (frameId : ℚ) :
    State × List Output :=
  ({ s with metrics.framesProcessed := s.metrics.framesProcessed + 1 },
   [.send (.frameData fromPeer frameId)])

/-- Inbound peer messages dispatched on their `type` field.  For
`latency-pong` the already-computed round-trip latency stands in for the
timestamp pair; `unknownType` covers every unmatched `type`. -/
inductive InMessage where
  | latencyPing (timestamp : ℚ)
  | latencyPong (latency : ℚ)
  | taskAssign (taskId : String)
  | taskResult (taskId : String)
  | frameData
  | renderRequest (frameId : ℚ)
  | unknownType
deriving DecidableEq, Repr

/-- `handlePeerMessage`: the `switch` over the message `type`. -/
def handlePeerMessage (s : State) (fromPeer : String) (msg : InMessage) :
    State × List Output :=
  match msg with
  | .latencyPing ts => (s, [.send (.latencyPong fromPeer ts)])
  | .latencyPong latency => handleLatencyPong s fromPeer latency
  | .taskAssign taskId => handleTaskAssignment s taskId
  | .taskResult taskId => handleTaskResult s fromPeer taskId
  | .frameData => (s, [.event (.frameReceived fromPeer)])
  | .renderRequest frameId =>
    if s.myRole = .master ∨ s.myRole = .compute then
      processRenderRequest s fromPeer frameId
    else (s, [])
  | .unknownType => (s, [])

/-- `start()`. -/
def startEngine (s : State) : State × List Output :=
  ({ s with isRunning := true }, [.event .startedEvent])

/-- `stop()`: clears only the pending-task map (and the running flag). -/
def stopEngine (s : State) : State × List Output :=
  ({ s with isRunning := false, pendingTasks := [] }, [.event .stoppedEvent])

/-- The directory write of `initialize()` (models the source's
`initialize`): the local node stores its own record with latency 0 and
emits the initialization event. -/
def initSelf (s : State) : State × List Output :=
  let myScore := calculateDeviceScore s.selfCapabilities 0
  let myRecord : DeviceScore :=
    { peerId := s.selfId, peerName := s.selfName, score := myScore,
      capabilities := s.selfCapabilities,
      suggestedRole := suggestRole s.selfCapabilities myScore,
      latency := 0 }
  let s := { s with deviceScores := mapSet s.deviceScores s.selfId myRecord }
  (s, [.event (.initEvent myScore)])

/-- One externally-triggered operation of the engine. -/
inductive Op where
  | peersUpdated (peers : List GhostPeer)
  | message (fromPeer : String) (msg : InMessage)
  | distribute (task : DistributedTask)
  | render (frameId : ℚ)
  | engineStart
  | engineStop
  | engineInit
deriving DecidableEq, Repr

/-- `requestRender`: message-only, no state change. -/
def requestRender (s : State) (frameId : ℚ) : State × List Output :=
  match s.masterPeerId with
  | some masterId =>
    if masterId ≠ s.selfId then (s, [.send (.renderRequest masterId frameId)])
    else (s, [])
  | none => (s, [])

/-- Small-step semantics of the engine over its operations. -/
def step (s : State) (op : Op) : State × List Output :=
  match op with
  | .peersUpdated peers => updateDeviceScores s peers
  | .message fromPeer msg => handlePeerMessage s fromPeer msg
  | .distribute task =>
    let r := distributeTask s task
    (r.1, r.2.1)
  | .render frameId => requestRender s frameId
  | .engineStart => startEngine s
  | .engineStop => stopEngine s
  | .engineInit => initSelf s

/-- Fold `step` over a list of operations, discarding outputs. -/
def run (s : State) (ops : List Op) : State :=
  ops.foldl (fun st op => (step st op).1) s

/-! ## Concrete states used to instantiate the theorems -/

/-- All-zero metrics, the constructor's initial value. -/
def metrics0 : DistributedMetrics :=
  { totalDevices := 0, masterDevice := none, avgLatency := 0,
    totalBandwidth := 0, framesProcessed := 0, tasksDistributed := 0,
    failedTasks := 0 }

/-- A fresh local node `"me"` with the all-capable profile. -/
def baseState : State :=
  { selfId := "me", selfName := "Me", selfCapabilities := fullCaps,
    myRole := .display, masterPeerId := none, deviceScores := [],
    pendingTasks := [], completedTasks := [], latencyTests := [],
    isRunning := false, metrics := metrics0 }

/-- The local node's own directory record with a forced score of 80. -/
def selfRecord : DeviceScore :=
  { peerId := "me", peerName := "Me", score := 80, capabilities := fullCaps,
    suggestedRole := .master, latency := 0 }

/-- A state in which the local node is already the elected master. -/
def electedState : State :=
  { baseState with myRole := .master, masterPeerId := some "me",
                   deviceScores := [("me", selfRecord)] }

/-- A small render task. -/
def sampleTask : DistributedTask :=
  { id := "t1", type := "render", data := none, timestamp := 0 }

/-- A running engine whose directory holds only the local node. -/
def runningSelfOnly : State :=
  { electedState with isRunning := true }

/-- A state with `sampleTask` pending. -/
def pendingState : State :=
  { baseState with pendingTasks := [("t1", sampleTask)] }

/-- The non-self entries of the directory, in iteration order — the devices
`findBestDeviceForTask` actually considers. -/
def candidatesList (s : State) : List DeviceScore :=
  (s.deviceScores.map Prod.snd).filter (fun d => d.peerId ≠ s.selfId)

/-- Mean of the most recent latency sample of every peer with at least one
sample; 0 when no peer has a sample. -/
def lastSampleMean (tests : List (String × List ℚ)) : ℚ :=
  let lasts := tests.filterMap (fun e => e.2.getLast?)
  if 0 < lasts.length then lasts.sum / (lasts.length : ℚ) else 0

/-- A GPU/render-only profile: score 80 at latency 0 (role `master`), score
60 at latency 1000 (which `suggestRole` would map to `display`). -/
def gpuOnlyCaps : PeerCapabilities :=
  { hasGPU := true, hasWASM := false, maxMemory := 10240, bandwidth := 100,
    canRender := true, canCompute := false, canStore := false }

/-- Directory record of peer `"p1"` with the GPU-only profile at latency 0. -/
def peerRecord : DeviceScore :=
  { peerId := "p1", peerName := "P1", score := 80,
    capabilities := gpuOnlyCaps, suggestedRole := .master, latency := 0 }

/-- A state knowing peer `"p1"` (and no elected master, no samples yet). -/
def latencyState : State :=
  { baseState with deviceScores := [("p1", peerRecord)] }

/-- A capability-less profile. -/
def weakCaps : PeerCapabilities :=
  { hasGPU := false, hasWASM := false, maxMemory := 0, bandwidth := 0,
    canRender := false, canCompute := false, canStore := false }

/-- A capability-less peer with score 0 and the bootstrap latency 50: its
render-task suitability is 0 + 0 − 50/5 = −10. -/
def weakRecord : DeviceScore :=
  { peerId := "p1", peerName := "P1", score := 0, capabilities := weakCaps,
    suggestedRole := .display, latency := 50 }

/-- A state whose only non-self peer is the capability-less one. -/
def weakState : State :=
  { baseState with deviceScores := [("me", selfRecord), ("p1", weakRecord)] }

/-- A WASM/compute profile without GPU. -/
def plainCaps : PeerCapabilities :=
  { hasGPU := false, hasWASM := true, maxMemory := 0, bandwidth := 0,
    canRender := false, canCompute := true, canStore := false }

/-- The non-GPU peer of the spec's affinity test, raw score 60. -/
def plainRecord : DeviceScore :=
  { peerId := "p2", peerName := "P2", score := 60, capabilities := plainCaps,
    suggestedRole := .compute, latency := 0 }

/-- The GPU peer of the spec's affinity test, raw score 50. -/
def gpuRecord : DeviceScore :=
  { peerId := "p3", peerName := "P3", score := 50,
    capabilities := gpuOnlyCaps, suggestedRole := .display, latency := 0 }

/-- Affinity-test state: the non-GPU score-60 peer is listed before the GPU
score-50 peer. -/
def affinityState : State :=
  { baseState with
      deviceScores := [("me", selfRecord), ("p2", plainRecord),
                       ("p3", gpuRecord)] }

end GhostDistributed

namespace GhostDistributed

/-- Evaluation rule for `jsRound` at concrete inputs. -/
theorem jsRound_eq (x : ℚ) (z : ℤ) (h1 : (z : ℚ) ≤ x + 1/2) (h2 : x + 1/2 < (z : ℚ) + 1) :
    jsRound x = z :=
  Int.floor_eq_iff.mpr ⟨h1, h2⟩

/-- Closed form of `calculateDeviceScore`: the sequential accumulation in the
source equals a single clamped rounded sum. -/
theorem calculateDeviceScore_closed_form (c : PeerCapabilities) (l : ℚ) :
    calculateDeviceScore c l =
      ((max 0 (jsRound (baseContribution c + min (c.maxMemory / 1024) 10 +
        min (c.bandwidth / 10) 10 - min (l / 10) 20)) : ℤ) : ℚ) := by
  obtain ⟨g, w, m, b, r, co, st⟩ := c
  simp only [calculateDeviceScore, baseContribution]
  apply congrArg
  apply congrArg
  apply congrArg
  cases g <;> cases w <;> cases r <;> cases co <;> simp

/-- C1: for every capability profile and latency, `calculateDeviceScore`
returns `max(0, round(B + min(maxMemory/1024,10) + min(bandwidth/10,10) −
min(latency/10,20)))` where `B` sums +40 for `hasGPU`, +20 for `hasWASM`,
+20 for `canRender`, +10 for `canCompute`; the all-capable profile with
10240 MB, 100 Mbps and latency 0 scores exactly 110; and the result is
never negative. -/
theorem calculateDeviceScore_formula_bound_nonneg :
    (∀ (c : PeerCapabilities) (l : ℚ),
      calculateDeviceScore c l =
        ((max 0 (jsRound (baseContribution c + min (c.maxMemory / 1024) 10 +
          min (c.bandwidth / 10) 10 - min (l / 10) 20)) : ℤ) : ℚ)) ∧
    calculateDeviceScore fullCaps 0 = 110 ∧
    (∀ (c : PeerCapabilities) (l : ℚ), 0 ≤ calculateDeviceScore c l) := by
  refine ⟨calculateDeviceScore_closed_form, ?_, ?_⟩
  · rw [calculateDeviceScore_closed_form]
    have hb : baseContribution fullCaps = 90 := by
      norm_num [baseContribution, fullCaps]
    rw [hb]
    have harg : (90 : ℚ) + min ((10240 : ℚ) / 1024) 10 + min ((100 : ℚ) / 10) 10 -
        min ((0 : ℚ) / 10) 20 = 110 := by
      norm_num [min_def]
    simp only [fullCaps]
    rw [harg, jsRound_eq 110 110 (by norm_num) (by norm_num)]
    norm_num
  · intro c l
    simp only [calculateDeviceScore]
    exact_mod_cast le_max_left (0 : ℤ) _

/-- C2: `suggestRole` evaluates its rules in strict order with first match
winning (score ≥ 70 with GPU and render → master; else score ≥ 50 with
WASM and compute → compute; else score ≥ 30 with storage → storage; else
display); with `hasGPU` and `canRender` true a score of exactly 70 yields
`master`, and at score 69 the result is never `master`. -/
theorem suggestRole_ordered_rules :
    (∀ (c : PeerCapabilities) (s : ℚ),
      suggestRole c s =
        if s ≥ 70 ∧ c.hasGPU ∧ c.canRender then .master
        else if s ≥ 50 ∧ c.hasWASM ∧ c.canCompute then .compute
        else if s ≥ 30 ∧ c.canStore then .storage
        else .display) ∧
    (∀ (c : PeerCapabilities), c.hasGPU = true → c.canRender = true →
      suggestRole c 70 = .master) ∧
    (∀ (c : PeerCapabilities), suggestRole c 69 ≠ .master) := by
  refine ⟨fun c s => rfl, ?_, ?_⟩
  · intro c hg hr
    simp [suggestRole, hg, hr]
  · intro c
    simp only [suggestRole]
    split
    · rename_i h
      exfalso
      have : (69 : ℚ) < 70 := by norm_num
      exact absurd h.1 (by exact not_le.mpr this)
    · split
      · exact fun h => by cases h
      · split
        · exact fun h => by cases h
        · exact fun h => by cases h

/-- Witness for C2 at a concrete profile and the boundary scores. -/
theorem suggestRole_ordered_rules_witness :
    suggestRole fullCaps 70 = .master ∧ suggestRole fullCaps 69 ≠ .master :=
  ⟨suggestRole_ordered_rules.2.1 fullCaps rfl rfl,
   suggestRole_ordered_rules.2.2 fullCaps⟩

/-! ## Election lemmas -/

/-- `electMaster` never touches the directory. -/
theorem electMaster_deviceScores (s : State) :
    (electMaster s).1.deviceScores = s.deviceScores := by
  unfold electMaster
  split
  · rfl
  · dsimp only
    split
    · rfl
    · split <;> rfl

/-- When the election finds no candidate it does nothing. -/
theorem electMaster_none (s : State)
    (hw : (electMasterWinner s.deviceScores).1 = none) :
    electMaster s = (s, []) := by
  unfold electMaster
  rw [hw]

/-- When the winner is already the elected master the election is a complete
no-op: no state change and no emitted event. -/
theorem electMaster_noop (s : State)
    (h : (electMasterWinner s.deviceScores).1 = s.masterPeerId) :
    electMaster s = (s, []) := by
  unfold electMaster
  rcases hw : (electMasterWinner s.deviceScores).1 with _ | w
  · rfl
  · rw [hw] at h
    dsimp only
    rw [if_pos h.symm]

/-- After an election with winner `w`, the elected master is `w`. -/
theorem electMaster_masterPeerId (s : State) (w : String)
    (hw : (electMasterWinner s.deviceScores).1 = some w) :
    (electMaster s).1.masterPeerId = some w := by
  unfold electMaster
  rw [hw]
  dsimp only
  split
  · next h => exact h
  · split <;> rfl

/-- C3: the election is idempotent: when the winning peerId equals the
previously elected master the election leaves the state untouched and emits
nothing; running the election a second time on the resulting state is always
a complete no-op (same master, no state change, no `master-elected` or
`role-changed` event); and the second run computes the winner from an
unchanged directory. -/
theorem electMaster_idempotent (s : State) :
    ((electMasterWinner s.deviceScores).1 = s.masterPeerId →
      electMaster s = (s, [])) ∧
    electMaster (electMaster s).1 = ((electMaster s).1, []) ∧
    electMasterWinner ((electMaster s).1.deviceScores) =
      electMasterWinner s.deviceScores := by
  refine ⟨electMaster_noop s, ?_, by rw [electMaster_deviceScores]⟩
  rcases hw : (electMasterWinner s.deviceScores).1 with _ | w
  · apply electMaster_none
    rw [electMaster_deviceScores, hw]
  · apply electMaster_noop
    rw [electMaster_deviceScores, hw, electMaster_masterPeerId s w hw]

/-- Witness for C3 at a concrete elected state. -/
theorem electMaster_idempotent_witness :
    electMaster electedState = (electedState, []) :=
  (electMaster_idempotent electedState).1 (by decide)

/-! ## Task distribution when not running (C6) -/

/-- Counterexample to C6 as stated: with the engine stopped, `distributeTask`
returns failure but leaves the state — in particular the `failedTasks`
counter — completely unchanged, whereas the claim asserts the counter is
incremented. -/
theorem distributeTask_notRunning_counterexample :
    distributeTask baseState sampleTask = (baseState, [], false) ∧
    baseState.metrics.failedTasks = 0 ∧
    (distributeTask baseState sampleTask).1.metrics.failedTasks ≠
      baseState.metrics.failedTasks + 1 := by
  refine ⟨by decide, by decide, by decide⟩

/-- C6 (amended): calling `distributeTask` while the engine is not running
returns a failure result and is otherwise a complete no-op: no state change
at all (in particular no failed-task increment), no target selection and no
message sent. -/
theorem distributeTask_notRunning (s : State) (task : DistributedTask)
    (h : s.isRunning = false) :
    distributeTask s task = (s, [], false) := by
  unfold distributeTask
  rw [h]
  rfl

/-- Witness for C6 (amended) at the stopped base state. -/
theorem distributeTask_notRunning_witness :
    distributeTask baseState sampleTask = (baseState, [], false) :=
  distributeTask_notRunning baseState sampleTask rfl

/-! ## Task distribution with no eligible peer (C7) -/

/-- A fold step that skips every entry leaves the accumulator unchanged. -/
theorem findBest_fold_skip (s : State) (taskType : String)
    (l : List (String × DeviceScore)) (acc : Option DeviceScore × ℚ)
    (h : ∀ e ∈ l, e.2.peerId = s.selfId) :
    l.foldl
      (fun (acc : Option DeviceScore × ℚ) e =>
        if e.2.peerId = s.selfId then acc
        else if taskSuitability taskType e.2 > acc.2 then
          (some e.2, taskSuitability taskType e.2)
        else acc)
      acc = acc := by
  induction l generalizing acc with
  | nil => rfl
  | cons e rest ih =>
    have he : e.2.peerId = s.selfId := h e (List.mem_cons_self e rest)
    simp only [List.foldl_cons, if_pos he]
    exact ih acc (fun x hx => h x (List.mem_cons_of_mem e hx))

/-- When every directory entry is the local node, no target is found. -/
theorem findBestDeviceForTask_self_only (s : State) (taskType : String)
    (h : ∀ e ∈ s.deviceScores, e.2.peerId = s.selfId) :
    findBestDeviceForTask s taskType = none := by
  unfold findBestDeviceForTask
  rw [findBest_fold_skip s taskType s.deviceScores (none, -1) h]

/-- C7: with the engine running and a directory containing only the local
node, `distributeTask` returns a failure outcome and increments
`failedTasks`, and nothing else happens: no pending-task entry, no message,
no exception (the embedded function is total). -/
theorem distributeTask_noEligiblePeer (s : State) (task : DistributedTask)
    (hrun : s.isRunning = true)
    (hself : ∀ e ∈ s.deviceScores, e.2.peerId = s.selfId) :
    distributeTask s task =
      ({ s with metrics.failedTasks := s.metrics.failedTasks + 1 },
       [], false) := by
  unfold distributeTask
  rw [hrun, findBestDeviceForTask_self_only s task.type hself]
  rfl

/-- Witness for C7: running engine, directory = self only. -/
theorem distributeTask_noEligiblePeer_witness :
    distributeTask runningSelfOnly sampleTask =
      ({ runningSelfOnly with
          metrics.failedTasks := runningSelfOnly.metrics.failedTasks + 1 },
       [], false) :=
  distributeTask_noEligiblePeer runningSelfOnly sampleTask rfl (by decide)

/-! ## Idempotent task-result handling (C8) -/

/-- A deleted key is no longer found. -/
theorem mapGet_mapDelete (m : List (String × α)) (k : String) :
    mapGet (mapDelete m k) k = none := by
  simp only [mapGet, mapDelete, Option.map_eq_none', List.find?_eq_none,
    List.mem_filter]
  intro e he
  simpa using he.2

/-- A result for a task id that is not pending changes nothing. -/
theorem handleTaskResult_not_pending (s : State) (fromPeer taskId : String)
    (h : mapGet s.pendingTasks taskId = none) :
    handleTaskResult s fromPeer taskId = (s, []) := by
  unfold handleTaskResult
  rw [h]

/-- C8: a `task-result` whose task id is not pending (unknown, already
completed or duplicate) is a complete no-op: no state change, no metrics
change, no event, no error; a result for a pending task completes it,
removes it from the pending map, emits exactly one `task-completed`, leaves
the metrics untouched, and a second identical result is then ignored. -/
theorem handleTaskResult_spec (s : State) (fromPeer taskId : String) :
    (mapGet s.pendingTasks taskId = none →
      handleTaskResult s fromPeer taskId = (s, [])) ∧
    (∀ t, mapGet s.pendingTasks taskId = some t →
      handleTaskResult s fromPeer taskId =
        ({ s with pendingTasks := mapDelete s.pendingTasks taskId,
                  completedTasks :=
                    mapSet s.completedTasks taskId { fromPeer := fromPeer } },
         [.event (.taskCompleted taskId fromPeer)]) ∧
      (handleTaskResult s fromPeer taskId).1.metrics = s.metrics ∧
      handleTaskResult (handleTaskResult s fromPeer taskId).1 fromPeer taskId =
        ((handleTaskResult s fromPeer taskId).1, [])) := by
  constructor
  · exact handleTaskResult_not_pending s fromPeer taskId
  · intro t ht
    have h1 : handleTaskResult s fromPeer taskId =
        ({ s with pendingTasks := mapDelete s.pendingTasks taskId,
                  completedTasks :=
                    mapSet s.completedTasks taskId { fromPeer := fromPeer } },
         [.event (.taskCompleted taskId fromPeer)]) := by
      unfold handleTaskResult
      rw [ht]
    refine ⟨h1, by rw [h1], ?_⟩
    apply handleTaskResult_not_pending
    rw [h1]
    exact mapGet_mapDelete _ _

/-- Witness for C8: complete `sampleTask`, then replay the same result. -/
theorem handleTaskResult_spec_witness :
    handleTaskResult (handleTaskResult pendingState "p2" "t1").1 "p2" "t1" =
      ((handleTaskResult pendingState "p2" "t1").1, []) :=
  (((handleTaskResult_spec pendingState "p2" "t1").2 sampleTask rfl)).2.2

/-! ## Association-list map lemmas -/

/-- A positive `mapHas` exhibits an entry with the key. -/
theorem mapHas_exists (m : List (String × α)) (k : String)
    (h : mapHas m k = true) : ∃ e ∈ m, e.1 = k := by
  unfold mapHas at h
  rw [List.any_eq_true] at h
  obtain ⟨e, he, hk⟩ := h
  exact ⟨e, he, by simpa using hk⟩

/-- A key the map does not have is not found. -/
theorem mapGet_eq_none_of_not_has (m : List (String × α)) (k : String)
    (h : mapHas m k = false) : mapGet m k = none := by
  have h' : ∀ e ∈ m, ¬((fun e : String × α => decide (e.1 = k)) e = true) := by
    intro e he hek
    have hh : mapHas m k = true := by
      unfold mapHas
      rw [List.any_eq_true]
      exact ⟨e, he, hek⟩
    rw [h] at hh
    cases hh
  unfold mapGet
  rw [List.find?_eq_none.mpr h']
  rfl

/-- After `mapSet m k v`, looking up `k` yields `v`. -/
theorem mapGet_mapSet_self (m : List (String × α)) (k : String) (v : α) :
    mapGet (mapSet m k v) k = some v := by
  unfold mapSet
  split
  · next h =>
    induction m with
    | nil => simp [mapHas] at h
    | cons e rest ih =>
      by_cases he : e.1 = k
      · unfold mapGet
        rw [List.map_cons, if_pos he, List.find?_cons_of_pos _ (by simp)]
        rfl
      · have hrest : mapHas rest k = true := by
          unfold mapHas at h ⊢
          rw [List.any_cons] at h
          simpa [he] using h
        unfold mapGet at ih ⊢
        rw [List.map_cons, if_neg he, List.find?_cons_of_neg _ (by simp [he])]
        exact ih hrest
  · next h =>
    have h' : mapHas m k = false := by
      cases hb : mapHas m k
      · rfl
      · exact absurd hb h
    induction m with
    | nil =>
      unfold mapGet
      rw [List.nil_append, List.find?_cons_of_pos _ (by simp)]
      rfl
    | cons e rest ih =>
      have he : ¬(e.1 = k) := by
        intro hek
        unfold mapHas at h'
        rw [List.any_cons] at h'
        simp [hek] at h'
      have hrest : mapHas rest k = false := by
        unfold mapHas at h' ⊢
        rw [List.any_cons] at h'
        simpa [he] using h'
      unfold mapGet at ih ⊢
      rw [List.cons_append, List.find?_cons_of_neg _ (by simp [he])]
      exact ih (by simp [hrest]) hrest

/-- `mapSet` never loses a key. -/
theorem mapHas_mapSet_of (m : List (String × α)) (k : String) (v : α)
    (k' : String) (h : mapHas m k' = true) :
    mapHas (mapSet m k v) k' = true := by
  unfold mapSet
  obtain ⟨e, he, hek⟩ := mapHas_exists m k' h
  split
  · unfold mapHas
    rw [List.any_eq_true]
    refine ⟨if e.1 = k then (k, v) else e, List.mem_map_of_mem _ he, ?_⟩
    by_cases h2 : e.1 = k
    · have hkk : k = k' := h2.symm.trans hek
      rw [if_pos h2]
      simp [hkk]
    · rw [if_neg h2]
      simp [hek]
  · unfold mapHas
    rw [List.any_eq_true]
    exact ⟨e, List.mem_append_left _ he, by simp [hek]⟩

/-- `mapSet` never shrinks the map. -/
theorem length_le_mapSet (m : List (String × α)) (k : String) (v : α) :
    m.length ≤ (mapSet m k v).length := by
  unfold mapSet
  split
  · rw [List.length_map]
  · rw [List.length_append]
    simp

/-! ## Latency-pong helper lemmas -/

/-- `updateAverageLatency` only rewrites the metrics. -/
theorem updateAverageLatency_latencyTests (s : State) :
    (updateAverageLatency s).latencyTests = s.latencyTests := rfl

/-- `updateAverageLatency` never touches the directory. -/
theorem updateAverageLatency_deviceScores (s : State) :
    (updateAverageLatency s).deviceScores = s.deviceScores := rfl

/-- The pong handler never touches the elected master. -/
theorem handleLatencyPong_masterPeerId (s : State) (p : String) (ℓ : ℚ) :
    (handleLatencyPong s p ℓ).1.masterPeerId = s.masterPeerId := rfl

/-- The pong handler never touches the local role. -/
theorem handleLatencyPong_myRole (s : State) (p : String) (ℓ : ℚ) :
    (handleLatencyPong s p ℓ).1.myRole = s.myRole := rfl

/-- The pong handler emits exactly the `latency-measured` event. -/
theorem handleLatencyPong_out (s : State) (p : String) (ℓ : ℚ) :
    (handleLatencyPong s p ℓ).2 = [.event (.latencyMeasured p ℓ)] := rfl

/-- The sample is appended to the sender's latency history. -/
theorem handleLatencyPong_tests (s : State) (p : String) (ℓ : ℚ) :
    mapGet (handleLatencyPong s p ℓ).1.latencyTests p =
      some ((mapGet s.latencyTests p).getD [] ++ [ℓ]) := by
  unfold handleLatencyPong
  dsimp only
  rw [updateAverageLatency_latencyTests]
  dsimp only
  rw [mapGet_mapSet_self]
  by_cases h : mapHas s.latencyTests p = true
  · rw [if_pos h]
  · rw [if_neg h, mapGet_mapSet_self,
      mapGet_eq_none_of_not_has s.latencyTests p (by simpa using h)]
    rfl

/-- For a known peer the pong handler overwrites only the record's `latency`
and `score` fields. -/
theorem handleLatencyPong_known (s : State) (p : String) (ℓ : ℚ)
    (d : DeviceScore) (h : mapGet s.deviceScores p = some d) :
    (handleLatencyPong s p ℓ).1.deviceScores =
      mapSet s.deviceScores p
        { d with latency := ℓ,
                 score := calculateDeviceScore d.capabilities ℓ } := by
  unfold handleLatencyPong
  dsimp only
  rw [updateAverageLatency_deviceScores]
  dsimp only
  rw [h]

/-- For an unknown peer the directory is left alone. -/
theorem handleLatencyPong_unknown (s : State) (p : String) (ℓ : ℚ)
    (h : mapGet s.deviceScores p = none) :
    (handleLatencyPong s p ℓ).1.deviceScores = s.deviceScores := by
  unfold handleLatencyPong
  dsimp only
  rw [updateAverageLatency_deviceScores]
  dsimp only
  rw [h]

/-! ## Average-latency lemmas -/

/-- Closed form of the `updateAverageLatency` fold. -/
theorem avgFold_eq (l : List (String × List ℚ)) (a : ℚ) (n : ℕ) :
    l.foldl
      (fun (acc : ℚ × ℕ) e =>
        match e.2.getLast? with
        | some v => (acc.1 + v, acc.2 + 1)
        | none => acc)
      (a, n) =
    (a + (l.filterMap (fun e => e.2.getLast?)).sum,
     n + (l.filterMap (fun e => e.2.getLast?)).length) := by
  induction l generalizing a n with
  | nil => simp
  | cons e rest ih =>
    cases he : e.2.getLast? with
    | none =>
      simp only [List.foldl_cons, he, List.filterMap_cons]
      exact ih a n
    | some v =>
      simp only [List.foldl_cons, he, List.filterMap_cons]
      rw [ih]
      simp only [List.sum_cons, List.length_cons, Prod.mk.injEq]
      constructor
      · ring
      · omega

/-- `updateAverageLatency` computes exactly the last-sample mean. -/
theorem updateAverageLatency_avg (s : State) :
    (updateAverageLatency s).metrics.avgLatency =
      lastSampleMean s.latencyTests := by
  unfold updateAverageLatency lastSampleMean
  dsimp only
  rw [avgFold_eq]
  simp

/-- After any pong, the average-latency metric is the last-sample mean of
the (new) latency histories. -/
theorem handleLatencyPong_avg (s : State) (p : String) (ℓ : ℚ) :
    (handleLatencyPong s p ℓ).1.metrics.avgLatency =
      lastSampleMean (handleLatencyPong s p ℓ).1.latencyTests :=
  updateAverageLatency_avg _

/-! ## Evaluation of the score at concrete inputs -/

/-- `calculateDeviceScore` at an input whose raw sum is a nonnegative
integer. -/
theorem calculateDeviceScore_eval (c : PeerCapabilities) (l : ℚ) (z : ℤ)
    (hz : 0 ≤ z)
    (h : baseContribution c + min (c.maxMemory / 1024) 10 +
      min (c.bandwidth / 10) 10 - min (l / 10) 20 = (z : ℚ)) :
    calculateDeviceScore c l = (z : ℚ) := by
  rw [calculateDeviceScore_closed_form, h]
  have hr : jsRound (z : ℚ) = z := by
    unfold jsRound
    rw [Int.floor_eq_iff]
    constructor
    · linarith
    · linarith
  rw [hr, max_eq_right hz]

/-- The GPU-only profile drops from 80 to 60 at latency 1000. -/
theorem gpuOnlyCaps_score_at_1000 :
    calculateDeviceScore gpuOnlyCaps 1000 = 60 :=
  calculateDeviceScore_eval gpuOnlyCaps 1000 60 (by norm_num)
    (by norm_num [baseContribution, gpuOnlyCaps, min_def])

/-! ## Latency updates (C5) -/

/-- Counterexample to C5 as stated.  Delivering a latency sample of 1000 ms
for known peer `"p1"` (GPU-only profile, stored role `master`) leaves the
stored `suggestedRole` at `master` although recomputing it from the new
score 60 would give `display`, and leaves `masterPeerId` at `none` although
a triggered re-election would have elected `"p1"`; and for the unknown peer
`"q"` the update is not a no-op: the average-latency metric changes from 0
to 30. -/
theorem latencyUpdate_counterexample :
    (mapGet (handleLatencyPong latencyState "p1" 1000).1.deviceScores
        "p1").map (fun d => d.suggestedRole) = some .master ∧
    suggestRole gpuOnlyCaps (calculateDeviceScore gpuOnlyCaps 1000) =
      .display ∧
    (handleLatencyPong latencyState "p1" 1000).1.masterPeerId = none ∧
    (electMasterWinner
        (handleLatencyPong latencyState "p1" 1000).1.deviceScores).1 =
      some "p1" ∧
    (handleLatencyPong latencyState "q" 30).1.metrics.avgLatency = 30 ∧
    latencyState.metrics.avgLatency = 0 := by
  refine ⟨?_, ?_, rfl, ?_, ?_, rfl⟩
  · rw [handleLatencyPong_known latencyState "p1" 1000 peerRecord rfl,
      mapGet_mapSet_self]
    rfl
  · rw [gpuOnlyCaps_score_at_1000]
    decide
  · rw [handleLatencyPong_known latencyState "p1" 1000 peerRecord rfl]
    have hc : calculateDeviceScore peerRecord.capabilities 1000 = 60 :=
      gpuOnlyCaps_score_at_1000
    rw [hc]
    decide
  · rw [handleLatencyPong_avg]
    have ht : (handleLatencyPong latencyState "q" 30).1.latencyTests =
        [("q", [30])] := rfl
    rw [ht]
    simp [lastSampleMean]

/-- C5 (amended): a latency sample delivered for peer `p` always appends the
sample to `p`'s latency history, refreshes the average-latency metric and
emits `latency-measured`; if `p` is known in the directory, only its
`latency` and `score` fields are overwritten (the suggested role is NOT
recomputed), and no master re-election is triggered (`masterPeerId` and
`myRole` are untouched); if `p` is unknown, the directory itself is
unchanged (but the latency history and average metric still change, so the
update is not a complete no-op). -/
theorem handleLatencyPong_spec (s : State) (p : String) (ℓ : ℚ) :
    mapGet (handleLatencyPong s p ℓ).1.latencyTests p =
      some ((mapGet s.latencyTests p).getD [] ++ [ℓ]) ∧
    (∀ d, mapGet s.deviceScores p = some d →
      mapGet (handleLatencyPong s p ℓ).1.deviceScores p =
        some { d with latency := ℓ,
                      score := calculateDeviceScore d.capabilities ℓ }) ∧
    (mapGet s.deviceScores p = none →
      (handleLatencyPong s p ℓ).1.deviceScores = s.deviceScores) ∧
    (handleLatencyPong s p ℓ).1.masterPeerId = s.masterPeerId ∧
    (handleLatencyPong s p ℓ).1.myRole = s.myRole ∧
    (handleLatencyPong s p ℓ).2 = [.event (.latencyMeasured p ℓ)] ∧
    (handleLatencyPong s p ℓ).1.metrics.avgLatency =
      lastSampleMean (handleLatencyPong s p ℓ).1.latencyTests := by
  refine ⟨handleLatencyPong_tests s p ℓ, ?_,
    handleLatencyPong_unknown s p ℓ, rfl, rfl, rfl,
    handleLatencyPong_avg s p ℓ⟩
  intro d hd
  rw [handleLatencyPong_known s p ℓ d hd, mapGet_mapSet_self]

/-- Witness for C5 (amended) on the known peer `"p1"` and the unknown peer
`"q"`. -/
theorem handleLatencyPong_spec_witness :
    mapGet (handleLatencyPong latencyState "p1" 1000).1.deviceScores "p1" =
      some { peerRecord with latency := 1000,
                             score :=
                               calculateDeviceScore peerRecord.capabilities
                                 1000 } ∧
    (handleLatencyPong latencyState "q" 30).1.deviceScores =
      latencyState.deviceScores :=
  ⟨(handleLatencyPong_spec latencyState "p1" 1000).2.1 peerRecord rfl,
   (handleLatencyPong_spec latencyState "q" 30).2.2.1 rfl⟩

/-! ## Rolling latency samples and the average metric (C9) -/

/-- Auxiliary induction for a sequence of pongs from one peer. -/
theorem latencyRun_aux (p : String) (lastS : ℚ) :
    ∀ (samples : List ℚ) (s : State) (d0 : DeviceScore),
      samples.getLast? = some lastS →
      mapGet s.deviceScores p = some d0 →
      (∃ d, mapGet (run s (samples.map
          (fun ℓ => Op.message p (InMessage.latencyPong ℓ)))).deviceScores p =
            some d ∧
        d.latency = lastS ∧
        d.score = calculateDeviceScore d.capabilities lastS) ∧
      (run s (samples.map
          (fun ℓ => Op.message p (InMessage.latencyPong ℓ)))).metrics.avgLatency =
        lastSampleMean (run s (samples.map
          (fun ℓ => Op.message p (InMessage.latencyPong ℓ)))).latencyTests := by
  intro samples
  induction samples with
  | nil =>
    intro s d0 hlast _
    simp at hlast
  | cons ℓ rest ih =>
    intro s d0 hlast hknown
    have hknown' : mapGet (handleLatencyPong s p ℓ).1.deviceScores p =
        some { d0 with latency := ℓ,
                       score := calculateDeviceScore d0.capabilities ℓ } := by
      rw [handleLatencyPong_known s p ℓ d0 hknown, mapGet_mapSet_self]
    cases rest with
    | nil =>
      have hl : ℓ = lastS := by simpa using hlast
      subst hl
      exact ⟨⟨_, hknown', rfl, rfl⟩, handleLatencyPong_avg s p ℓ⟩
    | cons r rs =>
      have hlast' : (r :: rs).getLast? = some lastS := by
        rw [← List.getLast?_cons_cons]
        exact hlast
      exact ih (handleLatencyPong s p ℓ).1 _ hlast' hknown'

/-- C9: after any nonempty sequence of latency samples delivered for a known
peer, the peer's recorded latency equals the most recent sample (and its
score is recomputed from it), and the average-latency metric equals the
arithmetic mean of the most recent sample of every peer with at least one
sample (0 when no peer has a sample — part of `lastSampleMean`). -/
theorem latency_rolling_update (s : State) (p : String) (samples : List ℚ)
    (lastS : ℚ) (hlast : samples.getLast? = some lastS) (d0 : DeviceScore)
    (hknown : mapGet s.deviceScores p = some d0) :
    (∃ d, mapGet (run s (samples.map
        (fun ℓ => Op.message p (InMessage.latencyPong ℓ)))).deviceScores p =
          some d ∧
      d.latency = lastS ∧
      d.score = calculateDeviceScore d.capabilities lastS) ∧
    (run s (samples.map
        (fun ℓ => Op.message p (InMessage.latencyPong ℓ)))).metrics.avgLatency =
      lastSampleMean (run s (samples.map
        (fun ℓ => Op.message p (InMessage.latencyPong ℓ)))).latencyTests :=
  latencyRun_aux p lastS samples s d0 hlast hknown

/-- Witness for C9: samples 10 ms, 20 ms, 30 ms for peer `"p1"`. -/
theorem latency_rolling_update_witness :
    (∃ d, mapGet (run latencyState ([10, 20, 30].map
        (fun ℓ => Op.message "p1" (InMessage.latencyPong ℓ)))).deviceScores
          "p1" = some d ∧
      d.latency = 30 ∧
      d.score = calculateDeviceScore d.capabilities 30) ∧
    (run latencyState ([10, 20, 30].map
        (fun ℓ => Op.message "p1" (InMessage.latencyPong ℓ)))).metrics.avgLatency =
      lastSampleMean (run latencyState ([10, 20, 30].map
        (fun ℓ => Op.message "p1" (InMessage.latencyPong ℓ)))).latencyTests :=
  latency_rolling_update latencyState "p1" [10, 20, 30] 30 rfl peerRecord rfl

/-! ## Target selection (C4) -/

/-- The self-skipping directory fold equals the plain fold over the
pre-filtered candidate list. -/
theorem skipFold_eq (tt : String) (selfId : String) :
    ∀ (l : List (String × DeviceScore)) (acc : Option DeviceScore × ℚ),
      l.foldl
        (fun (acc : Option DeviceScore × ℚ) e =>
          if e.2.peerId = selfId then acc
          else if taskSuitability tt e.2 > acc.2 then
            (some e.2, taskSuitability tt e.2)
          else acc)
        acc =
      ((l.map Prod.snd).filter (fun d => d.peerId ≠ selfId)).foldl
        (fun (acc : Option DeviceScore × ℚ) d =>
          if taskSuitability tt d > acc.2 then (some d, taskSuitability tt d)
          else acc)
        acc := by
  intro l
  induction l with
  | nil => intro acc; rfl
  | cons e rest ih =>
    intro acc
    by_cases he : e.2.peerId = selfId
    · rw [List.foldl_cons, if_pos he, List.map_cons,
        List.filter_cons_of_neg (by simp [he])]
      exact ih acc
    · rw [List.foldl_cons, if_neg he, List.map_cons,
        List.filter_cons_of_pos (by simp [he]), List.foldl_cons]
      exact ih _

/-- Behaviour of the running-maximum fold: either nothing beat the initial
threshold and the accumulator survives, or the result is the first device
attaining the maximum suitability among those beating the threshold. -/
theorem bestFold_cases (tt : String) :
    ∀ (l : List DeviceScore) (b : Option DeviceScore) (q : ℚ),
      (l.foldl
          (fun (acc : Option DeviceScore × ℚ) d =>
            if taskSuitability tt d > acc.2 then (some d, taskSuitability tt d)
            else acc)
          (b, q) = (b, q) ∧
        ∀ d ∈ l, taskSuitability tt d ≤ q) ∨
      (∃ l₁ d l₂, l = l₁ ++ d :: l₂ ∧
        l.foldl
          (fun (acc : Option DeviceScore × ℚ) d =>
            if taskSuitability tt d > acc.2 then (some d, taskSuitability tt d)
            else acc)
          (b, q) = (some d, taskSuitability tt d) ∧
        q < taskSuitability tt d ∧
        (∀ e ∈ l₁, taskSuitability tt e < taskSuitability tt d) ∧
        (∀ e ∈ l₂, taskSuitability tt e ≤ taskSuitability tt d)) := by
  intro l
  induction l with
  | nil =>
    intro b q
    left
    exact ⟨rfl, by simp⟩
  | cons x rest ih =>
    intro b q
    by_cases hx : taskSuitability tt x > q
    · rcases ih (some x) (taskSuitability tt x) with
        ⟨hfold, hbound⟩ | ⟨r₁, d, r₂, hsplit, hfold, hgt, h₁, h₂⟩
      · right
        refine ⟨[], x, rest, by simp, ?_, hx, by simp, hbound⟩
        rw [List.foldl_cons, if_pos hx]
        exact hfold
      · right
        refine ⟨x :: r₁, d, r₂, by rw [hsplit, List.cons_append], ?_,
          lt_trans hx hgt, ?_, h₂⟩
        · rw [List.foldl_cons, if_pos hx]
          exact hfold
        · intro e he
          rcases List.mem_cons.mp he with rfl | he'
          · exact hgt
          · exact h₁ e he'
    · rcases ih b q with
        ⟨hfold, hbound⟩ | ⟨r₁, d, r₂, hsplit, hfold, hgt, h₁, h₂⟩
      · left
        refine ⟨?_, ?_⟩
        · rw [List.foldl_cons, if_neg hx]
          exact hfold
        · intro d hd
          rcases List.mem_cons.mp hd with rfl | hd'
          · exact not_lt.mp hx
          · exact hbound d hd'
      · right
        refine ⟨x :: r₁, d, r₂, by rw [hsplit, List.cons_append], ?_, hgt,
          ?_, h₂⟩
        · rw [List.foldl_cons, if_neg hx]
          exact hfold
        · intro e he
          rcases List.mem_cons.mp he with rfl | he'
          · exact lt_of_le_of_lt (not_lt.mp hx) hgt
          · exact h₁ e he'

/-- Exact behaviour of `findBestDeviceForTask`: it returns `none` exactly
when no non-self device's suitability exceeds −1; otherwise it returns the
first device attaining the maximum suitability in directory order. -/
theorem findBest_characterization (s : State) (tt : String) :
    (findBestDeviceForTask s tt = none ∧
      ∀ d ∈ candidatesList s, taskSuitability tt d ≤ -1) ∨
    (∃ l₁ d l₂, candidatesList s = l₁ ++ d :: l₂ ∧
      findBestDeviceForTask s tt = some d ∧
      -1 < taskSuitability tt d ∧
      (∀ e ∈ l₁, taskSuitability tt e < taskSuitability tt d) ∧
      (∀ e ∈ l₂, taskSuitability tt e ≤ taskSuitability tt d)) := by
  have heq : findBestDeviceForTask s tt =
      ((candidatesList s).foldl
        (fun (acc : Option DeviceScore × ℚ) d =>
          if taskSuitability tt d > acc.2 then (some d, taskSuitability tt d)
          else acc)
        (none, -1)).1 := by
    unfold findBestDeviceForTask candidatesList
    rw [skipFold_eq tt s.selfId s.deviceScores (none, -1)]
  rcases bestFold_cases tt (candidatesList s) none (-1) with
    ⟨hfold, hb⟩ | ⟨l₁, d, l₂, hsplit, hfold, hgt, h₁, h₂⟩
  · left
    exact ⟨by rw [heq, hfold], hb⟩
  · right
    exact ⟨l₁, d, l₂, hsplit, by rw [heq, hfold], hgt, h₁, h₂⟩

/-- The capability-less bootstrap peer has render-suitability −10. -/
theorem weakRecord_suitability :
    taskSuitability "render" weakRecord = -10 := by
  simp [taskSuitability, weakRecord, weakCaps]
  norm_num

/-- Counterexample to C4 as stated: in a directory whose only non-self peer
is the capability-less bootstrap peer (suitability −10), target selection
returns no peer at all instead of the (unique, hence maximum-suitability)
candidate. -/
theorem findBestDeviceForTask_counterexample :
    findBestDeviceForTask weakState "render" = none ∧
    candidatesList weakState = [weakRecord] ∧
    taskSuitability "render" weakRecord = -10 := by
  have hcand : candidatesList weakState = [weakRecord] := by decide
  refine ⟨?_, hcand, weakRecord_suitability⟩
  rcases findBest_characterization weakState "render" with
    ⟨hnone, _⟩ | ⟨l₁, d, l₂, hsplit, _, hgt, _, _⟩
  · exact hnone
  · exfalso
    rw [hcand] at hsplit
    have hd : d = weakRecord := by
      cases l₁ with
      | nil =>
        simp only [List.nil_append] at hsplit
        exact (List.cons.injEq _ _ _ _ ▸ hsplit).1.symm
      | cons a as =>
        rw [List.cons_append] at hsplit
        have := (List.cons.injEq _ _ _ _ ▸ hsplit).2
        exact absurd this.symm (by simp)
    rw [hd, weakRecord_suitability] at hgt
    norm_num at hgt

/-- C4 (amended): target selection iterates every non-self peer in directory
order and computes suitability as score plus the type-affinity bonus minus
latency/5, but only peers whose suitability strictly exceeds −1 are ever
selected: if no candidate exceeds −1 (e.g. a high-latency, zero-score peer)
no peer is picked at all; otherwise the first candidate attaining the
maximum suitability wins (ties broken by directory iteration order).  In
particular, for a render task with a non-GPU score-60 peer listed before a
GPU score-50 peer (equal latency 0), the GPU peer is selected because
50 + 30 = 80 > 60. -/
theorem findBestDeviceForTask_spec :
    (∀ (s : State) (tt : String),
      (findBestDeviceForTask s tt = none ∧
        ∀ d ∈ candidatesList s, taskSuitability tt d ≤ -1) ∨
      (∃ l₁ d l₂, candidatesList s = l₁ ++ d :: l₂ ∧
        findBestDeviceForTask s tt = some d ∧
        -1 < taskSuitability tt d ∧
        (∀ e ∈ l₁, taskSuitability tt e < taskSuitability tt d) ∧
        (∀ e ∈ l₂, taskSuitability tt e ≤ taskSuitability tt d))) ∧
    findBestDeviceForTask affinityState "render" = some gpuRecord := by
  refine ⟨findBest_characterization, ?_⟩
  have h60 : taskSuitability "render" plainRecord = 60 := by
    simp [taskSuitability, plainRecord, plainCaps]
  have h80 : taskSuitability "render" gpuRecord = 80 := by
    simp [taskSuitability, gpuRecord, gpuOnlyCaps]
    norm_num
  unfold findBestDeviceForTask
  have hds : affinityState.deviceScores =
      [("me", selfRecord), ("p2", plainRecord), ("p3", gpuRecord)] := rfl
  rw [hds, List.foldl_cons, if_pos (show selfRecord.peerId =
    affinityState.selfId from rfl)]
  rw [List.foldl_cons, if_neg (show ¬(plainRecord.peerId =
    affinityState.selfId) by decide)]
  rw [h60, if_pos (show (60 : ℚ) > -1 by norm_num)]
  rw [List.foldl_cons, if_neg (show ¬(gpuRecord.peerId =
    affinityState.selfId) by decide)]
  rw [h80, if_pos (show (80 : ℚ) > 60 by norm_num)]
  rfl

/-! ## Directory monotonicity (C10) -/

/-- `electMaster` never touches `totalDevices`. -/
theorem electMaster_totalDevices (s : State) :
    (electMaster s).1.metrics.totalDevices = s.metrics.totalDevices := by
  unfold electMaster
  split
  · rfl
  · dsimp only
    split
    · rfl
    · split <;> rfl

/-- The insertion fold of `updateDeviceScores` keeps every key and never
shrinks the directory. -/
theorem peersFold_facts (s : State) :
    ∀ (peers : List GhostPeer) (ds : List (String × DeviceScore)),
      (∀ k, mapHas ds k = true →
        mapHas (peers.foldl
          (fun ds peer =>
            if mapHas ds peer.id then ds
            else
              let latency : ℚ :=
                match (mapGet s.latencyTests peer.id).bind List.head? with
                | some v => if v = 0 then 50 else v
                | none => 50
              let score := calculateDeviceScore peer.capabilities latency
              mapSet ds peer.id
                { peerId := peer.id, peerName := peer.name, score := score,
                  capabilities := peer.capabilities,
                  suggestedRole := suggestRole peer.capabilities score,
                  latency := latency })
          ds) k = true) ∧
      ds.length ≤ (peers.foldl
          (fun ds peer =>
            if mapHas ds peer.id then ds
            else
              let latency : ℚ :=
                match (mapGet s.latencyTests peer.id).bind List.head? with
                | some v => if v = 0 then 50 else v
                | none => 50
              let score := calculateDeviceScore peer.capabilities latency
              mapSet ds peer.id
                { peerId := peer.id, peerName := peer.name, score := score,
                  capabilities := peer.capabilities,
                  suggestedRole := suggestRole peer.capabilities score,
                  latency := latency })
          ds).length := by
  intro peers
  induction peers with
  | nil => intro ds; exact ⟨fun k hk => hk, le_refl _⟩
  | cons peer rest ih =>
    intro ds
    rw [List.foldl_cons]
    by_cases hp : mapHas ds peer.id = true
    · rw [if_pos hp]
      exact ih ds
    · rw [if_neg hp]
      refine ⟨?_, ?_⟩
      · intro k hk
        exact (ih _).1 k (mapHas_mapSet_of ds peer.id _ k hk)
      · exact le_trans (length_le_mapSet ds peer.id _) (ih _).2

/-- The directory after `updateDeviceScores` is the insertion fold. -/
theorem updateDeviceScores_deviceScores (s : State) (peers : List GhostPeer) :
    (updateDeviceScores s peers).1.deviceScores =
      peers.foldl
        (fun ds peer =>
          if mapHas ds peer.id then ds
          else
            let latency : ℚ :=
              match (mapGet s.latencyTests peer.id).bind List.head? with
              | some v => if v = 0 then 50 else v
              | none => 50
            let score := calculateDeviceScore peer.capabilities latency
            mapSet ds peer.id
              { peerId := peer.id, peerName := peer.name, score := score,
                capabilities := peer.capabilities,
                suggestedRole := suggestRole peer.capabilities score,
                latency := latency })
        s.deviceScores := by
  unfold updateDeviceScores
  dsimp only
  exact electMaster_deviceScores _

/-- `updateDeviceScores` sets `totalDevices` to the directory size. -/
theorem updateDeviceScores_totalDevices (s : State) (peers : List GhostPeer) :
    (updateDeviceScores s peers).1.metrics.totalDevices =
      (updateDeviceScores s peers).1.deviceScores.length := rfl

/-- The pong handler keeps keys, never shrinks the directory and does not
touch `totalDevices`. -/
theorem handleLatencyPong_dir (s : State) (p : String) (ℓ : ℚ) :
    (∀ k, mapHas s.deviceScores k = true →
      mapHas (handleLatencyPong s p ℓ).1.deviceScores k = true) ∧
    s.deviceScores.length ≤ (handleLatencyPong s p ℓ).1.deviceScores.length ∧
    (handleLatencyPong s p ℓ).1.metrics.totalDevices =
      s.metrics.totalDevices := by
  refine ⟨?_, ?_, rfl⟩
  · intro k hk
    cases hm : mapGet s.deviceScores p with
    | some d =>
      rw [handleLatencyPong_known s p ℓ d hm]
      exact mapHas_mapSet_of _ _ _ k hk
    | none =>
      rw [handleLatencyPong_unknown s p ℓ hm]
      exact hk
  · cases hm : mapGet s.deviceScores p with
    | some d =>
      rw [handleLatencyPong_known s p ℓ d hm]
      exact length_le_mapSet _ _ _
    | none =>
      rw [handleLatencyPong_unknown s p ℓ hm]

/-- `handleTaskResult` touches neither the directory nor the metrics. -/
theorem handleTaskResult_dir (s : State) (f tid : String) :
    (handleTaskResult s f tid).1.deviceScores = s.deviceScores ∧
    (handleTaskResult s f tid).1.metrics = s.metrics := by
  unfold handleTaskResult
  split <;> exact ⟨rfl, rfl⟩

/-- `distributeTask` touches neither the directory nor `totalDevices`. -/
theorem distributeTask_dir (s : State) (task : DistributedTask) :
    (distributeTask s task).1.deviceScores = s.deviceScores ∧
    (distributeTask s task).1.metrics.totalDevices =
      s.metrics.totalDevices := by
  unfold distributeTask
  split
  · exact ⟨rfl, rfl⟩
  · split <;> exact ⟨rfl, rfl⟩

/-- `requestRender` never changes the state. -/
theorem requestRender_state (s : State) (frameId : ℚ) :
    (requestRender s frameId).1 = s := by
  unfold requestRender
  split
  · split <;> rfl
  · rfl

/-- One engine operation never evicts a directory key, never shrinks the
directory, and either leaves `totalDevices` alone or sets it to the new
directory size. -/
theorem step_directory (s : State) (op : Op) :
    (∀ k, mapHas s.deviceScores k = true →
      mapHas (step s op).1.deviceScores k = true) ∧
    s.deviceScores.length ≤ (step s op).1.deviceScores.length ∧
    ((step s op).1.metrics.totalDevices = s.metrics.totalDevices ∨
      (step s op).1.metrics.totalDevices =
        (step s op).1.deviceScores.length) := by
  cases op with
  | peersUpdated peers =>
    refine ⟨?_, ?_, Or.inr (updateDeviceScores_totalDevices s peers)⟩
    · intro k hk
      show mapHas (updateDeviceScores s peers).1.deviceScores k = true
      rw [updateDeviceScores_deviceScores]
      exact (peersFold_facts s peers s.deviceScores).1 k hk
    · show s.deviceScores.length ≤
        (updateDeviceScores s peers).1.deviceScores.length
      rw [updateDeviceScores_deviceScores]
      exact (peersFold_facts s peers s.deviceScores).2
  | message fromPeer msg =>
    cases msg with
    | latencyPing ts => exact ⟨fun k hk => hk, le_refl _, Or.inl rfl⟩
    | latencyPong ℓ =>
      obtain ⟨h1, h2, h3⟩ := handleLatencyPong_dir s fromPeer ℓ
      exact ⟨h1, h2, Or.inl h3⟩
    | taskAssign tid => exact ⟨fun k hk => hk, le_refl _, Or.inl rfl⟩
    | taskResult tid =>
      obtain ⟨h1, h2⟩ := handleTaskResult_dir s fromPeer tid
      refine ⟨?_, ?_, Or.inl (by rw [show (step s (.message fromPeer
        (.taskResult tid))).1.metrics = s.metrics from h2])⟩
      · intro k hk
        show mapHas (handleTaskResult s fromPeer tid).1.deviceScores k = true
        rw [h1]
        exact hk
      · show s.deviceScores.length ≤
          (handleTaskResult s fromPeer tid).1.deviceScores.length
        rw [h1]
    | frameData => exact ⟨fun k hk => hk, le_refl _, Or.inl rfl⟩
    | renderRequest frameId =>
      by_cases hro : s.myRole = DeviceRole.master ∨ s.myRole = DeviceRole.compute
      · have hs : (step s (.message fromPeer (.renderRequest frameId))).1 =
            (processRenderRequest s fromPeer frameId).1 := by
          show (if s.myRole = DeviceRole.master ∨ s.myRole = DeviceRole.compute
            then processRenderRequest s fromPeer frameId else (s, [])).1 =
            (processRenderRequest s fromPeer frameId).1
          rw [if_pos hro]
        rw [hs]
        exact ⟨fun k hk => hk, le_refl _, Or.inl rfl⟩
      · have hs : (step s (.message fromPeer (.renderRequest frameId))).1 = s := by
          show (if s.myRole = DeviceRole.master ∨ s.myRole = DeviceRole.compute
            then processRenderRequest s fromPeer frameId else (s, [])).1 = s
          rw [if_neg hro]
        rw [hs]
        exact ⟨fun k hk => hk, le_refl _, Or.inl rfl⟩
    | unknownType => exact ⟨fun k hk => hk, le_refl _, Or.inl rfl⟩
  | distribute task =>
    obtain ⟨h1, h2⟩ := distributeTask_dir s task
    refine ⟨?_, ?_, Or.inl h2⟩
    · intro k hk
      show mapHas (distributeTask s task).1.deviceScores k = true
      rw [h1]
      exact hk
    · show s.deviceScores.length ≤
        (distributeTask s task).1.deviceScores.length
      rw [h1]
  | render frameId =>
    rw [show (step s (.render frameId)).1 = s from requestRender_state s frameId]
    exact ⟨fun k hk => hk, le_refl _, Or.inl rfl⟩
  | engineStart => exact ⟨fun k hk => hk, le_refl _, Or.inl rfl⟩
  | engineStop => exact ⟨fun k hk => hk, le_refl _, Or.inl rfl⟩
  | engineInit =>
    refine ⟨?_, ?_, Or.inl rfl⟩
    · intro k hk
      exact mapHas_mapSet_of _ _ _ k hk
    · exact length_le_mapSet _ _ _

/-- Auxiliary induction for C10 over an operation list. -/
theorem runDir_aux :
    ∀ (ops : List Op) (s : State),
      s.metrics.totalDevices ≤ s.deviceScores.length →
      (∀ k, mapHas s.deviceScores k = true →
        mapHas (run s ops).deviceScores k = true) ∧
      s.metrics.totalDevices ≤ (run s ops).metrics.totalDevices ∧
      (run s ops).metrics.totalDevices ≤ (run s ops).deviceScores.length := by
  intro ops
  induction ops with
  | nil => intro s hinv; exact ⟨fun k hk => hk, le_refl _, hinv⟩
  | cons op rest ih =>
    intro s hinv
    obtain ⟨hkeys, hlen, htot⟩ := step_directory s op
    have hinv' : (step s op).1.metrics.totalDevices ≤
        (step s op).1.deviceScores.length := by
      rcases htot with h | h
      · rw [h]
        exact le_trans hinv hlen
      · rw [h]
    have hmono : s.metrics.totalDevices ≤
        (step s op).1.metrics.totalDevices := by
      rcases htot with h | h
      · rw [h]
      · rw [h]
        exact le_trans (le_trans hinv hlen) (le_refl _)
    obtain ⟨ih1, ih2, ih3⟩ := ih (step s op).1 hinv'
    exact ⟨fun k hk => ih1 k (hkeys k hk), le_trans hmono ih2, ih3⟩

/-- C10: no engine operation ever removes a peer record from the directory:
over any sequence of operations every directory key survives, and — as long
as the `totalDevices` metric does not exceed the directory size, as in the
initial state — the `totalDevices` metric is monotonically non-decreasing
and stays bounded by the directory size. -/
theorem directory_monotone (s : State) (ops : List Op)
    (hinv : s.metrics.totalDevices ≤ s.deviceScores.length) :
    (∀ k, mapHas s.deviceScores k = true →
      mapHas (run s ops).deviceScores k = true) ∧
    s.metrics.totalDevices ≤ (run s ops).metrics.totalDevices ∧
    (run s ops).metrics.totalDevices ≤ (run s ops).deviceScores.length :=
  runDir_aux ops s hinv

/-- Witness for C10 on the fresh state and a small operation sequence. -/
theorem directory_monotone_witness :
    (∀ k, mapHas baseState.deviceScores k = true →
      mapHas (run baseState [Op.engineInit, Op.engineStart,
        Op.engineStop]).deviceScores k = true) ∧
    baseState.metrics.totalDevices ≤
      (run baseState [Op.engineInit, Op.engineStart,
        Op.engineStop]).metrics.totalDevices ∧
    (run baseState [Op.engineInit, Op.engineStart,
        Op.engineStop]).metrics.totalDevices ≤
      (run baseState [Op.engineInit, Op.engineStart,
        Op.engineStop]).deviceScores.length :=
  directory_monotone baseState [Op.engineInit, Op.engineStart, Op.engineStop]
    (by decide)

end GhostDistributed
